import Mathlib

/-!
Verification of the indicator-computation module of a crypto analytics
dashboard (`scripts/analytics.py`, class `CryptoAnalytics`).

Shallow embedding conventions:
* A price observation (`Obs`) carries its price and timestamp; timestamps are
  integers measured in seconds, prices are rationals.  A pandas `DataFrame`
  holding one symbol's rows ordered ascending by timestamp is embedded as a
  `List Obs` (or a `List ℚ` of prices where only the price column matters).
* Python `round(x, 2)` is embedded as `round2` using Mathlib's `round`
  (half-up); Python uses banker's rounding on binary floats, which agrees
  except at exact half-cent ties, which none of the facts below touch.
* `datetime.now()` appears inside `calculate_percentage_changes`,
  `get_min_max_values` and `generate_comprehensive_analytics`; the instant it
  returns is made an explicit parameter `sysNow` of the embedded functions
  (the source reads the clock separately in each metric block; the model uses
  a single instant per call, which only narrows the source's behaviours).
* Metric values are `Option`-valued: `none` embeds both a dict key bound to
  Python `None` and a key absent from a returned `{}` — the spec's single
  "unavailable" sentinel covers both.
* Where the source's float arithmetic can produce `inf`/`NaN` (pandas
  division), the embedding reproduces the IEEE outcome explicitly: in
  `calculate_rsi`, `avg_gain/avg_loss` with `avg_loss = 0` is `NaN` when
  `avg_gain = 0` (so `pd.isna` fires and the result is `None`) and `+inf`
  when `avg_gain > 0` (so `rsi = 100 - 100/(1 + inf) = 100.0`, a number);
  in `calculate_volatility`, the sample standard deviation (`ddof = 1`) of a
  single return is `NaN`, embedded as `none`.  Prices are assumed nonzero
  when forming period-over-period returns (the collector records positive
  API prices), so `pct_change` never divides by zero.
-/

/-- One row of the `prices` table for one symbol: price in USD, timestamp in
seconds, and the optional pass-through columns. -/
structure Obs where
  price : ℚ
  ts : ℤ
  marketCap : Option ℚ := none
  volume24h : Option ℚ := none
deriving DecidableEq, Repr

/-- Python `round(x, 2)`: round to 2 decimal places. -/
def round2 (x : ℚ) : ℚ := (round (100 * x) : ℤ) / 100

/-- Arithmetic mean of a list (pandas `.mean()`); `0` on `[]`, which every
use below guards against. -/
def listMean (l : List ℚ) : ℚ := l.sum / l.length

/-- The last `w` elements of a list: `rolling(window=w)` looks at rows
`len-w … len-1` when producing the final row's value. -/
def lastN (l : List ℚ) (w : ℕ) : List ℚ := l.drop (l.length - w)

/-- The `price_usd` column of a series. -/
def pricesOf (s : List Obs) : List ℚ := s.map Obs.price

/-- The series invariant from the data model: timestamps are non-decreasing
(the SQL query orders rows `ORDER BY timestamp ASC`). -/
def chron (s : List Obs) : Prop :=
  s.Pairwise fun a b => a.ts ≤ b.ts

instance : DecidablePred chron := fun s =>
  List.instDecidablePairwise s

/-! ### `calculate_moving_averages` -/

/-- One window's entry of `calculate_moving_averages`: the value bound to key
`ma_{w}d`.  The source returns `{}` for an empty frame and binds the key to
`None` when `len(df) < window`; both are `none` here.  For `len(df) ≥ window`
it reports `df['price_usd'].rolling(window=w).mean().iloc[-1]` rounded to 2
decimals, i.e. the mean of the last `w` prices. -/
def maEntry (prices : List ℚ) (w : ℕ) : Option ℚ :=
  if prices.length = 0 then none
  else if w ≤ prices.length then some (round2 (listMean (lastN prices w)))
  else none

/-- `calculate_moving_averages`: the list of `(w, ma_{w}d)` entries for the
configured windows (default `[7, 30]`); `[]` embeds the `{}` returned for an
empty frame. -/
def calculate_moving_averages (prices : List ℚ) (windows : List ℕ) :
    List (ℕ × Option ℚ) :=
  if prices.length = 0 then [] else windows.map fun w => (w, maEntry prices w)

/-- Spec-side phrasing of the moving average, for comparison with `maEntry`:
"arithmetic mean of the last `w` observations' prices", read off the reversed
list. -/
def maSpecMean (prices : List ℚ) (w : ℕ) : ℚ :=
  listMean (prices.reverse.take w)

/-- The 8-point daily-close demo series from the spec. -/
def demoCloses : List ℚ := [100, 102, 101, 105, 110, 108, 112, 115]

/-! ### `calculate_percentage_changes` -/

instance : Inhabited Obs := ⟨{ price := 0, ts := 0 }⟩

/-- One block of `calculate_percentage_changes`: `current` is the last price
of the whole frame (`df['price_usd'].iloc[-1]`); the base is the first row of
`df[df.index >= cutoff]`; the metric is `None` unless at least two rows
survive the cut.  An empty frame yields `{}` (all keys absent), hence
`none`. -/
def pctChange (s : List Obs) (cutoff : ℤ) : Option ℚ :=
  if s.length = 0 then none
  else
    let data := s.filter fun o => cutoff ≤ o.ts
    if 2 ≤ data.length then
      some (round2 ((s.getLastI.price - data.headI.price) / data.headI.price * 100))
    else none

/-- `change_1h`: cutoff is `datetime.now() - timedelta(hours=1)`. -/
def change_1h (s : List Obs) (sysNow : ℤ) : Option ℚ :=
  pctChange s (sysNow - 3600)

/-- `change_24h`: cutoff is `datetime.now() - timedelta(days=1)`. -/
def change_24h (s : List Obs) (sysNow : ℤ) : Option ℚ :=
  pctChange s (sysNow - 86400)

/-- `change_7d`: cutoff is `datetime.now() - timedelta(days=7)`. -/
def change_7d (s : List Obs) (sysNow : ℤ) : Option ℚ :=
  pctChange s (sysNow - 7 * 86400)

/-- `change_30d`: cutoff is `datetime.now() - timedelta(days=30)`. -/
def change_30d (s : List Obs) (sysNow : ℤ) : Option ℚ :=
  pctChange s (sysNow - 30 * 86400)

/-- Spec-side window `[now - L, now]` used by the percentage-change claim. -/
def inWindow (s : List Obs) (sysNow L : ℤ) : List Obs :=
  s.filter fun o => sysNow - L ≤ o.ts ∧ o.ts ≤ sysNow

/-! ### `calculate_volatility` -/

/-- `df['price_usd'].pct_change().dropna()`: period-over-period returns
`p_i / p_{i-1} - 1` over all consecutive pairs of the supplied series (the
leading `NaN` of `pct_change` is dropped). -/
def pct_change_list (prices : List ℚ) : List ℚ :=
  List.zipWith (fun prev cur => cur / prev - 1) prices prices.tail

/-- Sample variance (`ddof = 1`), guarded below against lists of length `< 2`. -/
def sampleVar (l : List ℚ) : ℚ :=
  (l.map fun r => (r - listMean l) ^ 2).sum / ((l.length : ℚ) - 1)

/-- Python `round(x, 2)` on real values, for the volatility path whose
standard deviation is irrational in general. -/
noncomputable def round2R (x : ℝ) : ℝ := (round (100 * x) : ℤ) / 100

/-- `calculate_volatility`: returns over the whole supplied frame (the
`days` argument is accepted but never read), sample standard deviation,
scaled by `sqrt 24`, as a rounded percentage.  `0.0` when `len(df) < 2`;
for `len(df) = 2` the lone return has sample standard deviation `NaN`
(`ddof = 1`), embedded as `none`. -/
noncomputable def calculate_volatility (prices : List ℚ) (days : ℕ) :
    Option ℝ :=
  if prices.length < 2 then some 0
  else if (pct_change_list prices).length < 2 then none
  else
    some (round2R (Real.sqrt (sampleVar (pct_change_list prices)) *
      Real.sqrt 24 * 100))

/-! ### `get_min_max_values` -/

/-- The result record of `get_min_max_values` (timestamps kept as instants;
the source's `%Y-%m-%d %H:%M` string formatting is presentation only). -/
structure MinMaxR where
  min_price : ℚ
  max_price : ℚ
  min_time : ℤ
  max_time : ℤ
deriving DecidableEq, Repr

/-- `df[df.index >= datetime.now() - timedelta(days=days)]`. -/
def period (s : List Obs) (sysNow : ℤ) (days : ℤ) : List Obs :=
  s.filter fun o => sysNow - days * 86400 ≤ o.ts

/-- Minimum of a list of prices (pandas `.min()` on a nonempty column). -/
def listMin : List ℚ → ℚ
  | [] => 0
  | [x] => x
  | x :: y :: t => min x (listMin (y :: t))

/-- Maximum of a list of prices (pandas `.max()` on a nonempty column). -/
def listMax : List ℚ → ℚ
  | [] => 0
  | [x] => x
  | x :: y :: t => max x (listMax (y :: t))

/-- Timestamp of the first observation attaining price `p` (pandas `idxmin` /
`idxmax` return the first index attaining the extremum). -/
def firstTsAt (l : List Obs) (p : ℚ) : ℤ :=
  ((l.find? fun o => o.price = p).map Obs.ts).getD 0

/-- `get_min_max_values`: `{}` (here `none`) on an empty frame or an empty
window; otherwise min/max prices rounded to 2 decimals plus the timestamps
at which they first occur. -/
def get_min_max_values (s : List Obs) (sysNow : ℤ) (days : ℤ) :
    Option MinMaxR :=
  if s.length = 0 then none
  else
    match period s sysNow days with
    | [] => none
    | o :: rest =>
      some
        { min_price := round2 (listMin (pricesOf (o :: rest)))
          max_price := round2 (listMax (pricesOf (o :: rest)))
          min_time := firstTsAt (o :: rest) (listMin (pricesOf (o :: rest)))
          max_time := firstTsAt (o :: rest) (listMax (pricesOf (o :: rest))) }

/-! ### `calculate_rsi` -/

/-- `prices.diff()` without its leading `NaN`: `δ_i = p_i - p_{i-1}`. -/
def deltas (prices : List ℚ) : List ℚ :=
  List.zipWith (fun prev cur => cur - prev) prices prices.tail

/-- `delta.where(delta > 0, 0)`: the gain at each step. -/
def gainsOf (prices : List ℚ) : List ℚ :=
  (deltas prices).map fun d => max d 0

/-- `(-delta).where(delta < 0, 0)`: the loss at each step. -/
def lossesOf (prices : List ℚ) : List ℚ :=
  (deltas prices).map fun d => max (-d) 0

/-- Trailing-`period` simple moving average of the gains
(`gain.rolling(window=period).mean().iloc[-1]`). -/
def avg_gain (prices : List ℚ) (p : ℕ) : ℚ := listMean (lastN (gainsOf prices) p)

/-- Trailing-`period` simple moving average of the losses. -/
def avg_loss (prices : List ℚ) (p : ℕ) : ℚ := listMean (lastN (lossesOf prices) p)

/-- `calculate_rsi`: `None` when `len(df) < period + 1`; otherwise
`rs = avg_gain / avg_loss` and `rsi = 100 - 100/(1 + rs)` in floats, with
`round(·, 2)` unless `pd.isna` fires.  The float artifacts are spelled out:
`0/0` is `NaN` (→ `None`); `positive/0` is `+inf`, for which
`100 - 100/(1 + inf)` is exactly `100.0`. -/
def calculate_rsi (prices : List ℚ) (p : ℕ := 14) : Option ℚ :=
  if prices.length < p + 1 then none
  else if avg_loss prices p = 0 then
    if avg_gain prices p = 0 then none else some 100
  else
    some (round2 (100 - 100 / (1 + avg_gain prices p / avg_loss prices p)))

/-! ### `generate_comprehensive_analytics` -/

/-- The analytics report assembled by `generate_comprehensive_analytics`
(bookkeeping entries `symbol` and the formatted `timestamp` string are
omitted; every metric entry is kept). -/
structure Report where
  current_price : Option ℚ
  ma_7d : Option ℚ
  ma_30d : Option ℚ
  chg_1h : Option ℚ
  chg_24h : Option ℚ
  chg_7d : Option ℚ
  chg_30d : Option ℚ
  volatility_7d : Option ℝ
  volatility_30d : Option ℝ
  min_max_7d : Option MinMaxR
  min_max_30d : Option MinMaxR
  rsi_14 : Option ℚ
  data_points : ℕ
  latest_market_cap : Option ℚ
  latest_volume_24h : Option ℚ

/-- The all-unavailable report: the embedding of the `{}` the source returns
when no data exists for a symbol. -/
def Report.unavailable : Report where
  current_price := none
  ma_7d := none
  ma_30d := none
  chg_1h := none
  chg_24h := none
  chg_7d := none
  chg_30d := none
  volatility_7d := none
  volatility_30d := none
  min_max_7d := none
  min_max_30d := none
  rsi_14 := none
  data_points := 0
  latest_market_cap := none
  latest_volume_24h := none

/-- `generate_comprehensive_analytics`, after the 30-day fetch: the supplied
series is the frame the SQL query returned.  Empty frame → `{}`; otherwise
every metric is computed from the same frame, with `calculate_volatility`
called with `days=7` and `days=30` and `get_min_max_values` with 7 and 30. -/
noncomputable def generate_comprehensive_analytics (s : List Obs)
    (sysNow : ℤ) : Report :=
  match s.getLast? with
  | none => Report.unavailable
  | some lastO =>
    { current_price := some (round2 lastO.price)
      ma_7d := maEntry (pricesOf s) 7
      ma_30d := maEntry (pricesOf s) 30
      chg_1h := change_1h s sysNow
      chg_24h := change_24h s sysNow
      chg_7d := change_7d s sysNow
      chg_30d := change_30d s sysNow
      volatility_7d := calculate_volatility (pricesOf s) 7
      volatility_30d := calculate_volatility (pricesOf s) 30
      min_max_7d := get_min_max_values s sysNow 7
      min_max_30d := get_min_max_values s sysNow 30
      rsi_14 := calculate_rsi (pricesOf s)
      data_points := s.length
      latest_market_cap := lastO.marketCap
      latest_volume_24h := lastO.volume24h }

/-- Multiply every price of a series by a constant (spec: scale-invariance). -/
def scaleSeries (c : ℚ) (s : List Obs) : List Obs :=
  s.map fun o => { o with price := c * o.price }

/-! ## C1: trailing moving average -/

theorem lastN_eq_reverse_take (l : List ℚ) (w : ℕ) :
    lastN l w = (l.reverse.take w).reverse := by
  rw [lastN, ← List.rtake_eq_reverse_take_reverse, List.rtake]

theorem listMean_reverse (l : List ℚ) : listMean l.reverse = listMean l := by
  simp [listMean, List.sum_reverse]

/-- **C1.** For a series of at least `w ≥ 1` observations, `ma_{w}d` is the
arithmetic mean of the last `w` prices rounded to 2 decimals; for fewer than
`w` observations it is unavailable; on the spec's 8-point demo series with
window 7 the value is 107.57. -/
theorem ma_trailing_mean :
    (∀ (prices : List ℚ) (w : ℕ), 0 < w →
      (w ≤ prices.length →
        maEntry prices w = some (round2 (maSpecMean prices w))) ∧
      (prices.length < w → maEntry prices w = none)) ∧
    maEntry demoCloses 7 = some (10757 / 100) := by
  constructor
  · intro prices w hw
    constructor
    · intro hlen
      have hne : ¬prices.length = 0 := by omega
      rw [maEntry, if_neg hne, if_pos hlen, maSpecMean,
        lastN_eq_reverse_take, listMean_reverse]
    · intro hlen
      rcases Nat.eq_zero_or_pos prices.length with h0 | h0
      · rw [maEntry, if_pos h0]
      · have hne : ¬prices.length = 0 := by omega
        rw [maEntry, if_neg hne, if_neg (by omega)]
  · norm_num [maEntry, demoCloses, lastN, listMean, round2, round_eq,
      Rat.floor_def]

/-- Witness for `ma_trailing_mean` at concrete inputs. -/
theorem ma_trailing_mean_witness :
    maEntry demoCloses 7 = some (round2 (maSpecMean demoCloses 7)) ∧
    maEntry demoCloses 30 = none :=
  ⟨(ma_trailing_mean.1 demoCloses 7 (by decide)).1 (by decide),
   (ma_trailing_mean.1 demoCloses 30 (by decide)).2 (by decide)⟩

/-! ## C2: percentage changes -/

/-- Two observations one hour apart, prices 100 then 110 (spec scenario). -/
def exTwo : List Obs := [{ price := 100, ts := 0 }, { price := 110, ts := 3600 }]

/-- When no observation is future-dated (the series provider's contract),
the source's one-sided cut `timestamp >= now - L` selects exactly the spec's
window `[now - L, now]`. -/
theorem filter_cut_eq_inWindow (s : List Obs) (sysNow L : ℤ)
    (hle : ∀ o ∈ s, o.ts ≤ sysNow) :
    (s.filter fun o => sysNow - L ≤ o.ts) = inWindow s sysNow L := by
  rw [inWindow]
  refine List.filter_congr fun o ho => ?_
  simp [decide_eq_decide, hle o ho]

/-- **C2.** For a chronologically ordered series with no future-dated rows:
whenever at least two observations fall in `[now - L, now]` the reported
change is `(current - base)/base * 100` rounded to 2 decimals, where
`current` is the last observation's price and `base` the price of the
earliest observation with `timestamp ≥ now - L`; with fewer than two such
observations the metric is unavailable.  On two observations one hour apart
with prices 100 then 110, `change_1h = 10.0`. -/
theorem pct_change_window_spec :
    (∀ (s : List Obs) (sysNow L : ℤ), chron s → (∀ o ∈ s, o.ts ≤ sysNow) →
      (2 ≤ (inWindow s sysNow L).length →
        pctChange s (sysNow - L) =
          some (round2 ((s.getLastI.price - (inWindow s sysNow L).headI.price) /
            (inWindow s sysNow L).headI.price * 100)) ∧
        ∀ o ∈ inWindow s sysNow L, (inWindow s sysNow L).headI.ts ≤ o.ts) ∧
      ((inWindow s sysNow L).length < 2 → pctChange s (sysNow - L) = none)) ∧
    change_1h exTwo 3600 = some 10 := by
  constructor
  · intro s sysNow L hchron hle
    have hfe := filter_cut_eq_inWindow s sysNow L hle
    constructor
    · intro h2
      have hsne : ¬s.length = 0 := by
        intro h0
        rw [List.length_eq_zero] at h0
        subst h0
        simp [inWindow] at h2
      constructor
      · rw [pctChange, if_neg hsne]
        simp only [hfe]
        rw [if_pos h2]
      · have hpw : (inWindow s sysNow L).Pairwise fun a b => a.ts ≤ b.ts :=
          hchron.sublist (by rw [inWindow]; exact List.filter_sublist s)
        rcases hw : inWindow s sysNow L with _ | ⟨b, t⟩
        · rw [hw] at h2; simp at h2
        · rw [hw] at hpw
          intro o ho
          rcases List.mem_cons.mp ho with rfl | hot
          · simp [List.headI]
          · exact (List.pairwise_cons.mp hpw).1 o hot
    · intro h2
      rcases Nat.eq_zero_or_pos s.length with h0 | h0
      · rw [pctChange, if_pos h0]
      · rw [pctChange, if_neg (by omega)]
        simp only [hfe]
        rw [if_neg (by omega)]
  · norm_num [change_1h, pctChange, exTwo, List.headI, List.getLastI,
      List.getLast?, round2, round_eq, Rat.floor_def]

/-- Witness for `pct_change_window_spec`: both branches exercised on the
two-point series. -/
theorem pct_change_window_spec_witness :
    (2 ≤ (inWindow exTwo 3600 3600).length →
      pctChange exTwo (3600 - 3600) =
        some (round2 ((exTwo.getLastI.price - (inWindow exTwo 3600 3600).headI.price) /
          (inWindow exTwo 3600 3600).headI.price * 100)) ∧
      ∀ o ∈ inWindow exTwo 3600 3600, (inWindow exTwo 3600 3600).headI.ts ≤ o.ts) ∧
    ((inWindow exTwo 3600 3600).length < 2 → pctChange exTwo (3600 - 3600) = none) :=
  (pct_change_window_spec.1 exTwo 3600 3600 (by decide) (by decide))

/-! ## C3: dependence on the system clock -/

/-- **C3 counterexample.** The time-windowed metrics are computed against
`datetime.now()` read inside the call, not an injected instant: the same
two-point series yields `change_1h = 10.0` when the clock reads the last
observation's instant, but `unavailable` when the clock reads a later
instant, so two runs over identical (Series, windows) inputs need not
produce identical reports. -/
theorem clock_dependence_counterexample :
    change_1h exTwo 3600 ≠ change_1h exTwo 40000 := by
  norm_num [change_1h, pctChange, exTwo, List.headI, List.getLastI,
    List.getLast?, round2, round_eq, Rat.floor_def]
  exact Option.some_ne_none _

/-- **C3 amended.** Each engine computation is a deterministic function of
the supplied Series, the configured windows, and the instant the system
clock reads during the call; since `datetime.now()` is read rather than
injected, the report genuinely varies with that clock instant: there is a
series and two instants at which the reports differ. -/
theorem report_depends_on_clock :
    ∃ (s : List Obs) (n₁ n₂ : ℤ),
      generate_comprehensive_analytics s n₁ ≠ generate_comprehensive_analytics s n₂ := by
  refine ⟨exTwo, 3600, 40000, fun h => ?_⟩
  have hc := congrArg Report.chg_1h h
  simp only [generate_comprehensive_analytics, exTwo] at hc
  rw [show ([{ price := 100, ts := 0 }, { price := 110, ts := 3600 }] :
      List Obs).getLast? = some { price := 110, ts := 3600 } from rfl] at hc
  revert hc
  norm_num [change_1h, pctChange, List.headI, List.getLastI,
    round2, round_eq, Rat.floor_def]
  exact Option.some_ne_none _

/-! ## C6: the empty series -/

/-- **C6.** On the empty Series the engine returns (without raising — the
embedded function is total) the report in which every metric is
unavailable; insufficiency is per-metric `none`, never an error value. -/
theorem empty_series_all_unavailable :
    ∀ sysNow : ℤ,
      generate_comprehensive_analytics [] sysNow = Report.unavailable ∧
      Report.unavailable.current_price = none ∧
      Report.unavailable.ma_7d = none ∧
      Report.unavailable.ma_30d = none ∧
      Report.unavailable.chg_1h = none ∧
      Report.unavailable.chg_24h = none ∧
      Report.unavailable.chg_7d = none ∧
      Report.unavailable.chg_30d = none ∧
      Report.unavailable.volatility_7d = none ∧
      Report.unavailable.volatility_30d = none ∧
      Report.unavailable.min_max_7d = none ∧
      Report.unavailable.min_max_30d = none ∧
      Report.unavailable.rsi_14 = none ∧
      Report.unavailable.latest_market_cap = none ∧
      Report.unavailable.latest_volume_24h = none :=
  fun _ => ⟨rfl, rfl, rfl, rfl, rfl, rfl, rfl, rfl, rfl, rfl, rfl, rfl, rfl,
    rfl, rfl⟩

/-! ## C7, C8: volatility -/

/-- **C7.** `calculate_volatility` never reads its `days` argument (the
returns are taken over all consecutive pairs of the supplied series), so the
result is independent of `days`; in particular the report's `volatility_7d`
and `volatility_30d` coincide on every series. -/
theorem volatility_ignores_days :
    (∀ (prices : List ℚ) (d₁ d₂ : ℕ),
      calculate_volatility prices d₁ = calculate_volatility prices d₂) ∧
    ∀ (s : List Obs) (sysNow : ℤ),
      (generate_comprehensive_analytics s sysNow).volatility_7d =
        (generate_comprehensive_analytics s sysNow).volatility_30d := by
  refine ⟨fun p d₁ d₂ => rfl, fun s sysNow => ?_⟩
  cases h : s.getLast?
  · simp [generate_comprehensive_analytics, h, Report.unavailable]
  · simp only [generate_comprehensive_analytics, h]
    rfl

theorem length_pct_change_list (p : List ℚ) :
    (pct_change_list p).length = p.length - 1 := by
  simp [pct_change_list]

theorem round2R_nonneg {x : ℝ} (hx : 0 ≤ x) : 0 ≤ round2R x := by
  have h2 : round (0 : ℝ) ≤ round (100 * x) := by
    rw [round_eq, round_eq]
    exact Int.floor_mono (by linarith)
  rw [round_zero] at h2
  have h3 : (0 : ℝ) ≤ ((round (100 * x) : ℤ) : ℝ) := by exact_mod_cast h2
  rw [round2R]
  exact div_nonneg h3 (by norm_num)

theorem pct_change_list_replicate (n : ℕ) (c : ℚ) (hc : c ≠ 0) :
    pct_change_list (List.replicate (n + 1) c) = List.replicate n 0 := by
  rw [pct_change_list, List.tail_replicate, List.zipWith_replicate]
  simp [div_self hc]

theorem sampleVar_replicate_zero (n : ℕ) :
    sampleVar (List.replicate n (0 : ℚ)) = 0 := by
  simp [sampleVar, listMean, List.sum_replicate]

/-- **C8 counterexample.** A constant-price series of length exactly 2 does
not give volatility `0.0`: its single return has sample standard deviation
`NaN` (`ddof = 1` over one element), and `round(nan * 100, 2)` is `NaN`
(embedded as `none`), so the claim's "every constant-price series gives
exactly 0.0" fails at the explicit input `[100, 100]`. -/
theorem volatility_const_len2_counterexample :
    calculate_volatility (List.replicate 2 (100 : ℚ)) 7 = none ∧
    (none : Option ℝ) ≠ some 0 := by
  constructor
  · have hrs := pct_change_list_replicate 1 (100 : ℚ) (by norm_num)
    rw [calculate_volatility, if_neg (by simp), hrs, if_pos (by simp)]
  · simp

/-- **C8 amended.** Volatility is the sample standard deviation of the
period-over-period returns scaled by `√24`, as a percentage rounded to 2
decimals (whenever that standard deviation is a number, i.e. at least two
returns exist); it is reported as `0` for series of fewer than 2
observations; whenever it is a number it is non-negative; every
constant-price series of length at least 3 (in particular length 20) gives
exactly `0.0`, while a constant-price series of length exactly 2 gives
`NaN` (unavailable), not `0.0`. -/
theorem volatility_std_spec :
    (∀ (p : List ℚ) (d : ℕ), p.length < 2 → calculate_volatility p d = some 0) ∧
    (∀ (p : List ℚ) (d : ℕ), 3 ≤ p.length →
      calculate_volatility p d =
        some (round2R (Real.sqrt (sampleVar (pct_change_list p)) *
          Real.sqrt 24 * 100))) ∧
    (∀ (p : List ℚ) (d : ℕ) (x : ℝ), calculate_volatility p d = some x → 0 ≤ x) ∧
    (∀ (n : ℕ) (c : ℚ) (d : ℕ), 3 ≤ n → c ≠ 0 →
      calculate_volatility (List.replicate n c) d = some 0) ∧
    (∀ (c : ℚ) (d : ℕ), calculate_volatility (List.replicate 2 c) d = none) := by
  refine ⟨fun p d h => ?_, fun p d h => ?_, fun p d x h => ?_,
    fun n c d h3 hc => ?_, fun c d => ?_⟩
  · rw [calculate_volatility, if_pos h]
  · rw [calculate_volatility, if_neg (by omega)]
    simp only [length_pct_change_list]
    rw [if_neg (by omega)]
  · rw [calculate_volatility] at h
    split_ifs at h with h1 h2
    · injection h with h
      exact h ▸ le_rfl
    · injection h with h
      exact h ▸
        round2R_nonneg
          (mul_nonneg (mul_nonneg (Real.sqrt_nonneg _) (Real.sqrt_nonneg _))
            (by norm_num))
  · obtain ⟨m, rfl⟩ : ∃ m, n = m + 1 := ⟨n - 1, by omega⟩
    have hrs := pct_change_list_replicate m c hc
    rw [calculate_volatility, if_neg (by simp; omega), hrs]
    rw [if_neg (by simp; omega), sampleVar_replicate_zero]
    simp [round2R]
  · rw [calculate_volatility, if_neg (by simp)]
    rw [if_pos (by rw [length_pct_change_list]; simp)]

/-- Witness for `volatility_std_spec` at concrete inputs (including the
spec's length-20 constant scenario via the universal conjunct). -/
theorem volatility_std_spec_witness :
    calculate_volatility [5] 7 = some 0 ∧
    calculate_volatility demoCloses 7 =
      some (round2R (Real.sqrt (sampleVar (pct_change_list demoCloses)) *
        Real.sqrt 24 * 100)) ∧
    (0 : ℝ) ≤ 0 ∧
    calculate_volatility (List.replicate 20 100) 7 = some 0 ∧
    calculate_volatility (List.replicate 2 100) 7 = none :=
  ⟨volatility_std_spec.1 [5] 7 (by decide),
   volatility_std_spec.2.1 demoCloses 7 (by simp [demoCloses]),
   volatility_std_spec.2.2.1 [5] 7 0 (volatility_std_spec.1 [5] 7 (by decide)),
   volatility_std_spec.2.2.2.1 20 100 7 (by decide) (by norm_num),
   volatility_std_spec.2.2.2.2 100 7⟩

/-! ## C4, C5: RSI -/

/-- A strictly increasing 15-point series: every delta is a gain. -/
def up15 : List ℚ := [1, 2, 3, 4, 5, 6, 7, 8, 9, 10, 11, 12, 13, 14, 15]

theorem listMean_nonneg {l : List ℚ} (h : ∀ x ∈ l, 0 ≤ x) : 0 ≤ listMean l :=
  div_nonneg (List.sum_nonneg h) (by positivity)

theorem avg_gain_nonneg (p : List ℚ) (n : ℕ) : 0 ≤ avg_gain p n := by
  refine listMean_nonneg fun x hx => ?_
  have hx' : x ∈ gainsOf p := List.drop_subset _ _ hx
  rcases List.mem_map.mp hx' with ⟨d, _, rfl⟩
  exact le_max_right d 0

theorem avg_loss_nonneg (p : List ℚ) (n : ℕ) : 0 ≤ avg_loss p n := by
  refine listMean_nonneg fun x hx => ?_
  have hx' : x ∈ lossesOf p := List.drop_subset _ _ hx
  rcases List.mem_map.mp hx' with ⟨d, _, rfl⟩
  exact le_max_right (-d) 0

/-- **C4 counterexample.** On the strictly increasing 15-point series the
trailing-14 average loss is `0`, yet `rsi_14` is the number `100.0`, not
"unavailable": pandas evaluates `avg_gain/0` to `+inf`, and
`100 - 100/(1 + inf)` is `100.0`, which `pd.isna` does not flag. -/
theorem rsi_all_gain_counterexample :
    calculate_rsi up15 14 = some 100 ∧ avg_loss up15 14 = 0 ∧
      up15.length = 15 := by
  refine ⟨?_, ?_, by decide⟩
  · rw [calculate_rsi, if_neg (by decide)]
    rw [if_pos (by norm_num [avg_loss, lossesOf, deltas, lastN, listMean,
      up15, max_def])]
    rw [if_neg (by norm_num [avg_gain, gainsOf, deltas, lastN, listMean,
      up15, max_def])]
  · norm_num [avg_loss, lossesOf, deltas, lastN, listMean, up15, max_def]

/-- **C4 amended.** `rsi_14` is unavailable exactly when the series has
fewer than 15 observations or the final RSI is `NaN`, and the `NaN` case
happens precisely when both the trailing-14 average gain and average loss
are `0`; when the average loss is `0` but the average gain is not (an
all-gain window), the division artifact yields the numeric value `100`,
not "unavailable". -/
theorem rsi_unavailable_iff :
    (∀ p : List ℚ,
      (calculate_rsi p 14 = none ↔
        p.length < 15 ∨ (avg_gain p 14 = 0 ∧ avg_loss p 14 = 0))) ∧
    (∀ p : List ℚ, 15 ≤ p.length → avg_loss p 14 = 0 → avg_gain p 14 ≠ 0 →
      calculate_rsi p 14 = some 100) := by
  constructor
  · intro p
    rw [calculate_rsi]
    split_ifs with h1 h2 h3
    · exact ⟨fun _ => Or.inl (by omega), fun _ => rfl⟩
    · exact ⟨fun _ => Or.inr ⟨h3, h2⟩, fun _ => rfl⟩
    · constructor
      · intro h
        exact absurd h (by simp)
      · rintro (h | ⟨hg, _⟩)
        · omega
        · exact absurd hg h3
    · constructor
      · intro h
        exact absurd h (by simp)
      · rintro (h | ⟨_, hl⟩)
        · omega
        · exact absurd hl h2
  · intro p hlen hal hag
    rw [calculate_rsi, if_neg (by omega), if_pos hal, if_neg hag]

/-- Witness for `rsi_unavailable_iff` at concrete inputs. -/
theorem rsi_unavailable_iff_witness :
    (calculate_rsi ([] : List ℚ) 14 = none ↔
      ([] : List ℚ).length < 15 ∨
        (avg_gain [] 14 = 0 ∧ avg_loss [] 14 = 0)) ∧
    calculate_rsi up15 14 = some 100 :=
  ⟨rsi_unavailable_iff.1 [],
   rsi_unavailable_iff.2 up15 (by decide)
     (by norm_num [avg_loss, lossesOf, deltas, lastN, listMean, up15, max_def])
     (by norm_num [avg_gain, gainsOf, deltas, lastN, listMean, up15, max_def])⟩

theorem round2_nonneg {x : ℚ} (hx : 0 ≤ x) : 0 ≤ round2 x := by
  have h2 : round (0 : ℚ) ≤ round (100 * x) := by
    rw [round_eq, round_eq]
    exact Int.floor_mono (by linarith)
  rw [round_zero] at h2
  have h3 : (0 : ℚ) ≤ ((round (100 * x) : ℤ) : ℚ) := by exact_mod_cast h2
  rw [round2]
  exact div_nonneg h3 (by norm_num)

theorem round2_le_100 {x : ℚ} (hx : x ≤ 100) : round2 x ≤ 100 := by
  have h2 : round (100 * x) ≤ 10000 := by
    rw [round_eq]
    have h3 : ⌊(10000 : ℚ) + 1 / 2⌋ = 10000 := by
      norm_num [Rat.floor_def]
    calc ⌊100 * x + 1 / 2⌋ ≤ ⌊(10000 : ℚ) + 1 / 2⌋ :=
          Int.floor_mono (by linarith)
      _ = 10000 := h3
  have h3 : ((round (100 * x) : ℤ) : ℚ) ≤ 10000 := by exact_mod_cast h2
  rw [round2]
  rw [div_le_iff₀ (by norm_num : (0 : ℚ) < 100)]
  linarith

/-- **C5.** Whenever `rsi_14` is a number, it lies in `[0, 100]`. -/
theorem rsi_bounded :
    ∀ (p : List ℚ) (v : ℚ), calculate_rsi p 14 = some v →
      0 ≤ v ∧ v ≤ 100 := by
  intro p v h
  rw [calculate_rsi] at h
  split_ifs at h with h1 h2 h3
  · injection h with h
    subst h
    norm_num
  · injection h with h
    subst h
    have hal : 0 < avg_loss p 14 :=
      lt_of_le_of_ne (avg_loss_nonneg p 14) (Ne.symm h2)
    have hr : 0 ≤ avg_gain p 14 / avg_loss p 14 :=
      div_nonneg (avg_gain_nonneg p 14) (le_of_lt hal)
    have hfrac_pos : 0 < 100 / (1 + avg_gain p 14 / avg_loss p 14) :=
      div_pos (by norm_num) (by linarith)
    have hfrac_le : 100 / (1 + avg_gain p 14 / avg_loss p 14) ≤ 100 :=
      div_le_self (by norm_num) (by linarith)
    exact ⟨round2_nonneg (by linarith), round2_le_100 (by linarith)⟩

/-- Witness for `rsi_bounded` at a concrete input. -/
theorem rsi_bounded_witness : (0 : ℚ) ≤ 100 ∧ (100 : ℚ) ≤ 100 :=
  rsi_bounded up15 100 (by
    rw [calculate_rsi, if_neg (by decide)]
    rw [if_pos (by norm_num [avg_loss, lossesOf, deltas, lastN, listMean,
      up15, max_def])]
    rw [if_neg (by norm_num [avg_gain, gainsOf, deltas, lastN, listMean,
      up15, max_def])])

/-! ## C9: min/max over the window -/

theorem listMin_le_mem : ∀ (l : List ℚ) (x : ℚ), x ∈ l → listMin l ≤ x := by
  intro l
  induction l with
  | nil => intro x hx; cases hx
  | cons a t ih =>
    intro x hx
    cases t with
    | nil =>
      rcases List.mem_singleton.mp hx with rfl
      exact le_rfl
    | cons b u =>
      rcases List.mem_cons.mp hx with rfl | hx'
      · exact min_le_left _ _
      · exact le_trans (min_le_right _ _) (ih x hx')

theorem mem_le_listMax : ∀ (l : List ℚ) (x : ℚ), x ∈ l → x ≤ listMax l := by
  intro l
  induction l with
  | nil => intro x hx; cases hx
  | cons a t ih =>
    intro x hx
    cases t with
    | nil =>
      rcases List.mem_singleton.mp hx with rfl
      exact le_rfl
    | cons b u =>
      rcases List.mem_cons.mp hx with rfl | hx'
      · exact le_max_left _ _
      · exact le_trans (ih x hx') (le_max_right _ _)

theorem listMin_mem : ∀ l : List ℚ, l ≠ [] → listMin l ∈ l := by
  intro l
  induction l with
  | nil => intro h; exact absurd rfl h
  | cons a t ih =>
    intro _
    cases t with
    | nil => exact List.mem_singleton.mpr rfl
    | cons b u =>
      rcases min_choice a (listMin (b :: u)) with h | h
      · rw [listMin, h]
        exact List.mem_cons_self _ _
      · rw [listMin, h]
        exact List.mem_cons_of_mem _ (ih (by simp))

theorem listMax_mem : ∀ l : List ℚ, l ≠ [] → listMax l ∈ l := by
  intro l
  induction l with
  | nil => intro h; exact absurd rfl h
  | cons a t ih =>
    intro _
    cases t with
    | nil => exact List.mem_singleton.mpr rfl
    | cons b u =>
      rcases max_choice a (listMax (b :: u)) with h | h
      · rw [listMax, h]
        exact List.mem_cons_self _ _
      · rw [listMax, h]
        exact List.mem_cons_of_mem _ (ih (by simp))

/-- The single observation priced 100.006, timestamped inside the window. -/
def exCent : List Obs := [{ price := 50003 / 500, ts := 0 }]

/-- **C9 counterexample.** `get_min_max_values` rounds the extrema before
reporting them: with one in-window observation priced 100.006, the reported
`min_price` is 100.01, which exceeds the only in-window price and equals no
observation's price — the claim's `min_price_7d ≤ every in-window price`
and attainment both fail as stated. -/
theorem minmax_rounding_counterexample :
    period exCent 0 7 = exCent ∧
    (get_min_max_values exCent 0 7).map MinMaxR.min_price =
      some (10001 / 100) ∧
    ¬((10001 : ℚ) / 100 ≤ 50003 / 500) ∧
    (10001 : ℚ) / 100 ≠ 50003 / 500 := by
  refine ⟨?_, ?_, by norm_num, by norm_num⟩
  · simp [period, exCent]
  · have hper : period exCent 0 7 = exCent := by simp [period, exCent]
    rw [get_min_max_values, if_neg (by simp [exCent])]
    rw [show period exCent 0 7 = [{ price := 50003 / 500, ts := 0 }] from hper]
    simp only [Option.map_some]
    norm_num [pricesOf, listMin, round2, round_eq, Rat.floor_def]

/-- **C9 amended.** When some observation falls in the window,
`get_min_max_values` reports the in-window minimum and maximum prices
*rounded to 2 decimals*; the pre-rounding minimum is `≤` every in-window
price and is attained by some in-window observation (dually for the
maximum).  When no observation falls in the window the metrics are
unavailable. -/
theorem minmax_window_spec :
    ∀ (s : List Obs) (sysNow days : ℤ),
      (period s sysNow days = [] →
        get_min_max_values s sysNow days = none) ∧
      (period s sysNow days ≠ [] →
        ∃ r, get_min_max_values s sysNow days = some r ∧
          r.min_price = round2 (listMin (pricesOf (period s sysNow days))) ∧
          r.max_price = round2 (listMax (pricesOf (period s sysNow days))) ∧
          (∀ o ∈ period s sysNow days,
            listMin (pricesOf (period s sysNow days)) ≤ o.price ∧
              o.price ≤ listMax (pricesOf (period s sysNow days))) ∧
          (∃ o ∈ period s sysNow days,
            o.price = listMin (pricesOf (period s sysNow days))) ∧
          (∃ o ∈ period s sysNow days,
            o.price = listMax (pricesOf (period s sysNow days)))) := by
  intro s sysNow days
  constructor
  · intro hp
    by_cases h0 : s.length = 0
    · rw [get_min_max_values, if_pos h0]
    · rw [get_min_max_values, if_neg h0, hp]
  · intro hp
    have h0 : ¬s.length = 0 := by
      intro h0
      rw [List.length_eq_zero] at h0
      subst h0
      exact hp (by rfl)
    rcases hper : period s sysNow days with _ | ⟨o, rest⟩
    · exact absurd hper hp
    refine ⟨_, by rw [get_min_max_values, if_neg h0, hper], rfl, rfl, ?_, ?_, ?_⟩
    · intro o' ho'
      exact ⟨listMin_le_mem _ _ (List.mem_map_of_mem Obs.price ho'),
        mem_le_listMax _ _ (List.mem_map_of_mem Obs.price ho')⟩
    · have hne : pricesOf (o :: rest) ≠ [] := by simp [pricesOf]
      rcases List.mem_map.mp (listMin_mem _ hne) with ⟨o', ho', he⟩
      exact ⟨o', ho', he⟩
    · have hne : pricesOf (o :: rest) ≠ [] := by simp [pricesOf]
      rcases List.mem_map.mp (listMax_mem _ hne) with ⟨o', ho', he⟩
      exact ⟨o', ho', he⟩

/-- Witness for `minmax_window_spec`: both branches at concrete inputs. -/
theorem minmax_window_spec_witness :
    get_min_max_values exTwo 1000000 7 = none ∧
    (∃ r, get_min_max_values exTwo 3600 7 = some r ∧
      r.min_price = round2 (listMin (pricesOf (period exTwo 3600 7))) ∧
      r.max_price = round2 (listMax (pricesOf (period exTwo 3600 7))) ∧
      (∀ o ∈ period exTwo 3600 7,
        listMin (pricesOf (period exTwo 3600 7)) ≤ o.price ∧
          o.price ≤ listMax (pricesOf (period exTwo 3600 7))) ∧
      (∃ o ∈ period exTwo 3600 7,
        o.price = listMin (pricesOf (period exTwo 3600 7))) ∧
      (∃ o ∈ period exTwo 3600 7,
        o.price = listMax (pricesOf (period exTwo 3600 7)))) :=
  ⟨(minmax_window_spec exTwo 1000000 7).1 (by simp [period, exTwo]),
   (minmax_window_spec exTwo 3600 7).2 (by simp [period, exTwo])⟩

/-! ## C10: scale invariance of percentage changes -/

theorem getLastI_scaleSeries (c : ℚ) (s : List Obs) (hs : s ≠ []) :
    (scaleSeries c s).getLastI =
      { s.getLastI with price := c * s.getLastI.price } := by
  obtain ⟨a, ha⟩ :=
    Option.isSome_iff_exists.mp (List.getLast?_isSome.mpr hs)
  rw [scaleSeries, List.getLastI_eq_getLast?, List.getLastI_eq_getLast?,
    List.getLast?_map, ha]
  rfl

theorem pctChange_scaleSeries (s : List Obs) (cutoff : ℤ) (c : ℚ)
    (hc : c ≠ 0) :
    pctChange (scaleSeries c s) cutoff = pctChange s cutoff := by
  rw [pctChange, pctChange]
  simp only [scaleSeries, List.length_map]
  by_cases h0 : s.length = 0
  · rw [if_pos h0, if_pos h0]
  · rw [if_neg h0, if_neg h0]
    have hfil : ((s.map fun o => { o with price := c * o.price }).filter
        fun o => cutoff ≤ o.ts) =
        ((s.filter fun o => cutoff ≤ o.ts).map
          fun o => { o with price := c * o.price }) :=
      List.filter_map _ s
    rw [hfil, List.length_map]
    by_cases h2 : 2 ≤ (s.filter fun o => cutoff ≤ o.ts).length
    · rw [if_pos h2, if_pos h2]
      have hs : s ≠ [] := by
        intro h
        subst h
        simp at h0
      rcases hd : s.filter fun o => cutoff ≤ o.ts with _ | ⟨b, t⟩
      · rw [hd] at h2
        simp at h2
      have key : (c * s.getLastI.price - c * b.price) / (c * b.price) * 100 =
          (s.getLastI.price - b.price) / b.price * 100 := by
        rw [← mul_sub, mul_div_mul_left _ _ hc]
      have hlast := getLastI_scaleSeries c s hs
      rw [scaleSeries] at hlast
      rw [hd, hlast]
      simp only [List.map_cons, List.headI]
      exact congrArg (fun x => some (round2 x)) key
    · rw [if_neg h2, if_neg h2]

/-- **C10.** Multiplying every price by a positive constant leaves every
percentage-change metric — value and availability alike — unchanged. -/
theorem pct_change_scale_invariant :
    ∀ (s : List Obs) (sysNow : ℤ) (c : ℚ), 0 < c →
      (∀ cutoff : ℤ,
        pctChange (scaleSeries c s) cutoff = pctChange s cutoff) ∧
      change_1h (scaleSeries c s) sysNow = change_1h s sysNow ∧
      change_24h (scaleSeries c s) sysNow = change_24h s sysNow ∧
      change_7d (scaleSeries c s) sysNow = change_7d s sysNow ∧
      change_30d (scaleSeries c s) sysNow = change_30d s sysNow := by
  intro s sysNow c hc
  have hc' : c ≠ 0 := ne_of_gt hc
  exact ⟨fun cutoff => pctChange_scaleSeries s cutoff c hc',
    pctChange_scaleSeries s _ c hc', pctChange_scaleSeries s _ c hc',
    pctChange_scaleSeries s _ c hc', pctChange_scaleSeries s _ c hc'⟩

/-- Witness for `pct_change_scale_invariant` at a concrete input. -/
theorem pct_change_scale_invariant_witness :
    (∀ cutoff : ℤ,
      pctChange (scaleSeries 2 exTwo) cutoff = pctChange exTwo cutoff) ∧
    change_1h (scaleSeries 2 exTwo) 3600 = change_1h exTwo 3600 ∧
    change_24h (scaleSeries 2 exTwo) 3600 = change_24h exTwo 3600 ∧
    change_7d (scaleSeries 2 exTwo) 3600 = change_7d exTwo 3600 ∧
    change_30d (scaleSeries 2 exTwo) 3600 = change_30d exTwo 3600 :=
  pct_change_scale_invariant exTwo 3600 2 (by norm_num)
